import Mathlib

/-!
Shallow embedding of `src/llimcobe/llimcobe.py`: a benchmarking harness for
image compression codecs.  The harness keeps a registry of "models" (bundles
of hooks), and `benchmark` drives every model over a dataset, measuring
bits-per-sub-pixel and compression/decompression throughput while staging
each compressed artifact in a single scratch file slot.

Python effects are made explicit:
* fallible code (codec hooks, `os.path.getsize`, Python's `/`) lives in
  `Except PyErr`;
* the scratch file `self.temp` is an `Option Bytes` threaded through a
  run state, together with the `lossy_flag`, a perf-counter index and an
  event trace that records the observable actions of a run (file writes,
  size reads, removals, compare outcomes, warnings, diagnostic display
  thread starts/joins);
* wall-clock elapsed times and the fate of the diagnostic display threads
  are supplied by oracles in the environment.
-/

set_option autoImplicit false

namespace Llimcobe

/-- Errors a Python execution of the harness can raise. -/
inductive PyErr where
  | zeroDiv
  | fileNotFound
  | hook (code : Nat)
deriving DecidableEq, Repr

/-- Python's true division `a / b`: raises `ZeroDivisionError` when `b = 0`. -/
def pydiv (a b : ℚ) : Except PyErr ℚ :=
  if b = 0 then .error .zeroDiv else .ok (a / b)

/-- Contents of a file on the scratch storage (a byte string). -/
abbrev Bytes := List Nat

/-- A raw `numpy` image: an `H×W×C` array with an element byte width
(`dtype.itemsize`) and payload data. -/
structure Img where
  h : Nat
  w : Nat
  c : Nat
  itemsize : Nat
  data : List Nat
deriving DecidableEq, Repr

/-- Embeds `np.size`: the element count `H*W*C` of the array. -/
def Img.size (i : Img) : Nat := i.h * i.w * i.c

/-- Embeds `self.lens = list(map(np.size, self.dataset))` (llimcobe.py line 19). -/
def lensOf (dataset : List Img) : List Nat := dataset.map Img.size

/-- Embeds `__init__` lines 24-25: `if os.path.exists(self.temp): os.remove(self.temp)` —
the scratch slot after harness construction, given the stale content found there. -/
def initTemp (stale : Option Bytes) : Option Bytes :=
  if stale.isSome then none else stale

/-- Observable events of a benchmark run, in program order. -/
inductive Ev where
  | write (b : Bytes)
  | loadSz (itemsize : Nat)
  | cmp (same : Bool)
  | warn
  | dispStart (k : Nat)
  | dispJoin (k : Nat)
  | size (n : Nat)
  | remove
deriving DecidableEq, Repr

/-- Mutable state threaded through a benchmark run: the scratch slot
(`self.temp` file), the `lossy_flag`, a perf-counter index, a counter of
diagnostic attempts, and the event trace. -/
structure RunSt where
  slot : Option Bytes
  flag : Bool
  clock : Nat
  diag : Nat
  trace : List Ev
deriving DecidableEq, Repr

/-- An entry of `self.models[name]` (llimcobe.py line 57): the stored hook
bundle.  `α` is the (dynamically typed) domain of preprocessed and encoded
values. -/
structure StoredEntry (α : Type) where
  model : Option (α → Except PyErr α)
  preprocess : Img → Except PyErr α
  save : α → Except PyErr Bytes
  load : Bytes → Except PyErr Img
  compare : α → α → Except PyErr Bool

/-- The registry `self.models`: a string-keyed insertion-ordered dictionary. -/
abbrev Models (α : Type) := List (String × StoredEntry α)

/-- Membership test `name in self.models.keys()`. -/
def containsModel {α : Type} (ms : Models α) (k : String) : Bool :=
  ms.any (fun p => p.1 = k)

/-- Lookup `self.models[name]` lookup. -/
def lookupModel {α : Type} (ms : Models α) (k : String) : Option (StoredEntry α) :=
  (ms.find? (fun p => p.1 = k)).map Prod.snd

/-- Assignment `self.models[name] = entry`: overwrite in place, or append (Python dicts
keep the original position of an overwritten key and append new keys). -/
def insertModel {α : Type} (ms : Models α) (k : String) (v : StoredEntry α) : Models α :=
  if containsModel ms k then ms.map (fun p => if p.1 = k then (k, v) else p)
  else ms ++ [(k, v)]

/-- Deletion `del self.models[name]`. -/
def eraseModel {α : Type} (ms : Models α) (k : String) : Models α :=
  ms.filter (fun p => ¬ p.1 = k)

/-- Embeds `set_model` (llimcobe.py lines 38-61).  Arguments that Python callers may
pass as `None` are `Option`s; Python truthiness of a string is `≠ ""`, of an
optional callable is `isSome`.  The stored `compare` defaults to structural
equality `lambda x, y: x == y` when `compare` is falsy. -/
def set_model {α : Type} [DecidableEq α] (ms : Models α) (name : String)
    (model : Option (α → Except PyErr α)) (preprocess : Img → Except PyErr α)
    (save : Option (α → Except PyErr Bytes)) (load : Option (Bytes → Except PyErr Img))
    (compare : Option (α → α → Except PyErr Bool)) : Models α × Bool :=
  if (name ≠ "" ∧ model.isSome ∧ save.isSome ∧ load.isSome) ∨
      (name ≠ "" ∧ save.isSome ∧ load.isSome) then
    match save, load with
    | some sv, some ld =>
        (insertModel ms name
          { model := model, preprocess := preprocess, save := sv, load := ld,
            compare := compare.getD (fun x y => .ok (decide (x = y))) }, true)
    | _, _ => (ms, false)
  else (ms, false)

/-- The two possible (differently typed) callables `get_model` can return:
the `model` hook or the `save` hook. -/
inductive Hook (α : Type) where
  | enc (f : α → Except PyErr α)
  | sv (f : α → Except PyErr Bytes)

/-- Embeds `get_model` (llimcobe.py lines 63-73): the `model` hook if truthy, else
the `save` hook, else Python `False` (here `none`). -/
def get_model {α : Type} (ms : Models α) (name : String) : Option (Hook α) :=
  match lookupModel ms name with
  | some e =>
      match e.model with
      | some m => some (.enc m)
      | none => some (.sv e.save)
  | none => none

/-- Embeds `del_model` (llimcobe.py lines 75-84). -/
def del_model {α : Type} (ms : Models α) (name : String) : Models α × Bool :=
  if containsModel ms name then (eraseModel ms name, true) else (ms, false)

/-- The environment of a run: the dataset fixed at construction, an oracle
for wall-clock elapsed times (indexed by perf-counter use), and an oracle
saying whether (and where) the `k`-th diagnostic display attempt fails. -/
structure Env where
  dataset : List Img
  times : Nat → ℚ
  disp : Nat → Option (Fin 4)

/-- Reading the scratch file (`load(self.temp)` reads the artifact):
`FileNotFoundError` when the slot is empty. -/
def readSlot (slot : Option Bytes) : Except PyErr Bytes :=
  match slot with
  | none => .error .fileNotFound
  | some b => .ok b

/-- Embeds `os.path.getsize(self.temp)`. -/
def getsize (slot : Option Bytes) : Except PyErr Nat :=
  match slot with
  | none => .error .fileNotFound
  | some b => .ok b.length

/-- Events of the `try:` block at llimcobe.py lines 121-131: start thread 1,
start thread 2, join 1, join 2.  A failure at position `j` (e.g. the
`.show` attribute lookup or thread machinery raising) performs only the
actions before `j`; the surrounding `except: pass` swallows it either way. -/
def dispEvs (fail : Option (Fin 4)) : List Ev :=
  match fail with
  | none => [Ev.dispStart 1, Ev.dispStart 2, Ev.dispJoin 1, Ev.dispJoin 2]
  | some j => ([Ev.dispStart 1, Ev.dispStart 2, Ev.dispJoin 1, Ev.dispJoin 2]).take j

/-- The compression phase (llimcobe.py lines 106-110): if the `model` hook is
truthy, encode then save its output, else save the preprocessed image
directly.  Returns the bytes written to the scratch file. -/
def encodeSave {α : Type} (e : StoredEntry α) (image : α) : Except PyErr Bytes :=
  match e.model with
  | some m => do
      let compressed ← m image
      e.save compressed
  | none => e.save image

/-- One iteration of the inner measurement loop (llimcobe.py lines 104-138)
for one `(image, length)` pair: timed compression (encode+save or save),
timed load, pixel width capture, preprocess, fidelity check with one-time
diagnostic, size read, slot removal, metric computation. -/
def benchStep {α : Type} (env : Env) (e : StoredEntry α) (image : α) (length : Nat)
    (s : RunSt) : Except PyErr (RunSt × ℚ × ℚ × ℚ) := do
  let elapsed1 := env.times s.clock
  let bytes ← encodeSave e image
  let s1 : RunSt := { s with slot := some bytes, trace := s.trace ++ [Ev.write bytes] }
  let elapsed2 := env.times (s.clock + 1)
  let content ← readSlot s1.slot
  let raw ← e.load content
  let pixel_size : Nat := raw.itemsize * 8
  let s2 : RunSt := { s1 with trace := s1.trace ++ [Ev.loadSz raw.itemsize] }
  let loaded ← e.preprocess raw
  let same ← e.compare image loaded
  let s3 : RunSt := { s2 with trace := s2.trace ++ [Ev.cmp same] }
  let s4 : RunSt :=
    if same = false ∧ s3.flag = false then
      { s3 with
        flag := true,
        diag := s3.diag + 1,
        trace := s3.trace ++ [Ev.warn] ++ dispEvs (env.disp s3.diag) }
    else s3
  let n ← getsize s4.slot
  let s5 : RunSt := { s4 with slot := none, trace := s4.trace ++ [Ev.size n, Ev.remove] }
  let image_bits : Nat := n * 8
  let bpsp ← pydiv (image_bits : ℚ) (length : ℚ)
  let cthr ← pydiv ((length : ℚ) * (pixel_size : ℚ) / (8 * 10 ^ 6)) elapsed1
  let dthr ← pydiv ((length : ℚ) * (pixel_size : ℚ) / (8 * 10 ^ 6)) elapsed2
  .ok ({ s5 with clock := s.clock + 2 }, bpsp, cthr, dthr)

/-- The inner `for (image, length, _) in zip(...)` loop, collecting the three
metric lists in order. -/
def benchLoop {α : Type} (env : Env) (e : StoredEntry α) :
    List (α × Nat) → RunSt → Except PyErr (RunSt × List ℚ × List ℚ × List ℚ)
  | [], s => .ok (s, [], [], [])
  | (image, length) :: rest, s => do
      let (s', b, c, d) ← benchStep env e image length s
      let (s'', bs, cs, ds) ← benchLoop env e rest s'
      .ok (s'', b :: bs, c :: cs, d :: ds)

/-- Embeds `list(map(f, l))` in `Except`: eager application to every element,
propagating the first raised error. -/
def mapExcept {α : Type} (f : Img → Except PyErr α) : List Img → Except PyErr (List α)
  | [] => .ok []
  | x :: xs => do
      let y ← f x
      let ys ← mapExcept f xs
      .ok (y :: ys)

/-- One model's measurement pass (llimcobe.py lines 99-138): preprocess the
*entire* dataset eagerly, then iterate over
`zip(dataset, self.lens, range(num_images))`. -/
def benchModel {α : Type} (env : Env) (e : StoredEntry α) (num : Nat) (s : RunSt) :
    Except PyErr (RunSt × List ℚ × List ℚ × List ℚ) := do
  let ds ← mapExcept e.preprocess env.dataset
  benchLoop env e ((ds.zip (lensOf env.dataset)).take num) s

/-- The outer `for name in self.models` loop: measure every model in
registration order, threading the run state (and the shared `lossy_flag`). -/
def benchAll {α : Type} (env : Env) :
    Models α → Nat → RunSt → Except PyErr (RunSt × List (String × List ℚ × List ℚ × List ℚ))
  | [], _, s => .ok (s, [])
  | (nm, e) :: rest, num, s => do
      let (s', bs, cs, ds) ← benchModel env e num s
      let (s'', tail) ← benchAll env rest num s'
      .ok (s'', (nm, bs, cs, ds) :: tail)

/-- Embeds `sum(l) / len(l)` with Python division. -/
def mean (l : List ℚ) : Except PyErr ℚ :=
  pydiv l.sum (l.length : ℚ)

/-- The printing loop (llimcobe.py lines 144-149): per model, the three
means, computed with Python division. -/
def report : List (String × List ℚ × List ℚ × List ℚ) →
    Except PyErr (List (String × ℚ × ℚ × ℚ))
  | [] => .ok []
  | (nm, bs, cs, ds) :: rest => do
      let mb ← mean bs
      let mc ← mean cs
      let md ← mean ds
      let tail ← report rest
      .ok ((nm, mb, mc, md) :: tail)

/-- Embeds `benchmark(num_images)` (llimcobe.py lines 86-149, plotting omitted as an
external sink): run every registered model, then print per-model means.
`slot0` is the scratch slot's content when the call starts; the `lossy_flag`
is initialized to `False` at line 97. -/
def benchmark {α : Type} (env : Env) (models : Models α) (num : Nat) (slot0 : Option Bytes) :
    Except PyErr (RunSt × List (String × List ℚ × List ℚ × List ℚ) × List (String × ℚ × ℚ × ℚ)) := do
  let s0 : RunSt := { slot := slot0, flag := false, clock := 0, diag := 0, trace := [] }
  let (s1, results) ← benchAll env models num s0
  let means ← report results
  .ok (s1, results, means)

/-! ### Trace observation helpers -/

/-- Whether an event belongs to the diagnostic display side channel. -/
def Ev.isDisp : Ev → Bool
  | .dispStart _ => true
  | .dispJoin _ => true
  | _ => false

/-- A trace with the diagnostic display events erased. -/
def stripDisp (tr : List Ev) : List Ev := tr.filter (fun ev => ! ev.isDisp)

/-- The artifact byte sizes read by `os.path.getsize`, in order. -/
def sizesIn (tr : List Ev) : List Nat :=
  tr.filterMap (fun ev => match ev with | .size n => some n | _ => none)

/-- The element byte widths of the raw loaded images, in order. -/
def itemsIn (tr : List Ev) : List Nat :=
  tr.filterMap (fun ev => match ev with | .loadSz n => some n | _ => none)

/-- The outcomes of the fidelity comparisons, in order. -/
def cmpsIn (tr : List Ev) : List Bool :=
  tr.filterMap (fun ev => match ev with | .cmp b => some b | _ => none)

/-- How many mismatch warnings the trace contains. -/
def warnCount (tr : List Ev) : Nat :=
  (tr.filter (fun ev => ev = Ev.warn)).length

/-- The scratch-slot protocol of one measurement iteration: one write of the
artifact, the pixel-width read, the compare, possibly the one-time diagnostic
(warning plus display attempts), then a size read of exactly the written
bytes and the removal — nothing else touches the slot. -/
def IsIterBlock (evs : List Ev) : Prop :=
  ∃ bytes item same dvs,
    (dvs = [] ∨ ∃ o, dvs = Ev.warn :: dispEvs o) ∧
    evs = [Ev.write bytes, Ev.loadSz item, Ev.cmp same] ++ dvs ++
      [Ev.size bytes.length, Ev.remove]

/-- The events one successful measurement iteration appends to the trace:
artifact write, pixel-width read, compare outcome, the one-time diagnostic
when the compare failed and the lossy flag was still unset, then the size
read and the removal. -/
def stepEvs (bytes : Bytes) (item : Nat) (same : Bool) (flag : Bool)
    (o : Option (Fin 4)) : List Ev :=
  [Ev.write bytes, Ev.loadSz item, Ev.cmp same] ++
    (if same = false ∧ flag = false then Ev.warn :: dispEvs o else []) ++
    [Ev.size bytes.length, Ev.remove]

/-- Everything a successful inner measurement loop guarantees, relative to
its start state `s`, its final state `s'`, its three metric lists and the
events `tr` it appended to the trace. -/
structure LoopFacts {α : Type} (env : Env) (pairs : List (α × Nat)) (s s' : RunSt)
    (bs cs ds : List ℚ) (tr : List Ev) : Prop where
  trace_eq : s'.trace = s.trace ++ tr
  bs_len : bs.length = pairs.length
  cs_len : cs.length = pairs.length
  ds_len : ds.length = pairs.length
  clock_eq : s'.clock = s.clock + 2 * pairs.length
  slot_eq : s'.slot = if pairs.isEmpty then s.slot else none
  flag_eq : s'.flag = (s.flag || (cmpsIn tr).any (fun x => ! x))
  warn_eq : warnCount tr =
    if s.flag = false ∧ (cmpsIn tr).any (fun x => ! x) = true then 1 else 0
  blocks : ∃ blocks : List (List Ev), tr = blocks.flatten ∧ ∀ bl ∈ blocks, IsIterBlock bl
  bs_eq : bs = List.zipWith (fun n len => ((n * 8 : Nat) : ℚ) / ((len : Nat) : ℚ))
    (sizesIn tr) (pairs.map Prod.snd)
  cs_eq : ∀ i, i < pairs.length → cs.getD i 0 =
    (((pairs.map Prod.snd).getD i 0 : ℚ) * (((itemsIn tr).getD i 0 * 8 : Nat) : ℚ) /
      (8 * 10 ^ 6)) / env.times (s.clock + 2 * i)
  ds_eq : ∀ i, i < pairs.length → ds.getD i 0 =
    (((pairs.map Prod.snd).getD i 0 : ℚ) * (((itemsIn tr).getD i 0 * 8 : Nat) : ℚ) /
      (8 * 10 ^ 6)) / env.times (s.clock + 2 * i + 1)

/-- Two run states that agree on everything a benchmark's measurements can
depend on: they may differ only in the display events of their traces. -/
def RelSt (s1 s2 : RunSt) : Prop :=
  s1.slot = s2.slot ∧ s1.flag = s2.flag ∧ s1.clock = s2.clock ∧ s1.diag = s2.diag ∧
    stripDisp s1.trace = stripDisp s2.trace

/-! ### Result projections (for stating claims about successful runs) -/

/-- The initial run state of a `benchmark()` call on a freshly constructed
harness: empty scratch slot, `lossy_flag = False`, fresh counters. -/
def rs0 : RunSt := { slot := none, flag := false, clock := 0, diag := 0, trace := [] }

/-- Final state of a successful per-model run. -/
def okSt (r : Except PyErr (RunSt × List ℚ × List ℚ × List ℚ)) : RunSt :=
  match r with
  | .ok o => o.1
  | .error _ => rs0

/-- The recorded bpsp list of a successful per-model run. -/
def okBs (r : Except PyErr (RunSt × List ℚ × List ℚ × List ℚ)) : List ℚ :=
  match r with
  | .ok o => o.2.1
  | .error _ => []

/-- The recorded compression-throughput list of a successful per-model run. -/
def okCs (r : Except PyErr (RunSt × List ℚ × List ℚ × List ℚ)) : List ℚ :=
  match r with
  | .ok o => o.2.2.1
  | .error _ => []

/-- The recorded decompression-throughput list of a successful per-model run. -/
def okDs (r : Except PyErr (RunSt × List ℚ × List ℚ × List ℚ)) : List ℚ :=
  match r with
  | .ok o => o.2.2.2
  | .error _ => []

/-- Final state of a successful single measurement step. -/
def stepSt (r : Except PyErr (RunSt × ℚ × ℚ × ℚ)) : RunSt :=
  match r with
  | .ok o => o.1
  | .error _ => rs0

/-- Final state of a successful outer loop over the models. -/
def allSt (r : Except PyErr (RunSt × List (String × List ℚ × List ℚ × List ℚ))) : RunSt :=
  match r with
  | .ok o => o.1
  | .error _ => rs0

/-- Final state of a successful `benchmark` call. -/
def bmSt (r : Except PyErr (RunSt × List (String × List ℚ × List ℚ × List ℚ) ×
    List (String × ℚ × ℚ × ℚ))) : RunSt :=
  match r with
  | .ok o => o.1
  | .error _ => rs0

/-- Per-model metric lists of a successful `benchmark` call. -/
def bmResults (r : Except PyErr (RunSt × List (String × List ℚ × List ℚ × List ℚ) ×
    List (String × ℚ × ℚ × ℚ))) : List (String × List ℚ × List ℚ × List ℚ) :=
  match r with
  | .ok o => o.2.1
  | .error _ => []

/-- Whether a Python computation finished without raising. -/
def isOkE {A : Type} (r : Except PyErr A) : Bool :=
  match r with
  | .ok _ => true
  | .error _ => false

/-- The display-independent observation of a `benchmark` outcome: everything
except the display events of the trace. -/
def bmObs (r : Except PyErr (RunSt × List (String × List ℚ × List ℚ × List ℚ) ×
    List (String × ℚ × ℚ × ℚ))) :
    Except PyErr ((Option Bytes × Bool × Nat × Nat × List Ev) ×
      List (String × List ℚ × List ℚ × List ℚ) × List (String × ℚ × ℚ × ℚ)) :=
  r.map (fun o => ((o.1.slot, o.1.flag, o.1.clock, o.1.diag, stripDisp o.1.trace), o.2))

/-! ### Concrete instances used to exercise the theorems -/

/-- A `2×2×2` 8-bit image (element count 8). -/
def img8 : Img := { h := 2, w := 2, c := 2, itemsize := 1, data := [0, 1, 2, 3, 4, 5, 6, 7] }

/-- A different, `1×2×1` image. -/
def img9 : Img := { h := 1, w := 2, c := 1, itemsize := 1, data := [5, 6] }

/-- An image with empty payload, used to trigger a preprocess failure. -/
def imgE : Img := { h := 1, w := 1, c := 1, itemsize := 1, data := [] }

/-- Identity preprocess hook. -/
def preId : Img → Except PyErr Img := fun i => .ok i

/-- Identity-bytes persist hook: writes the image payload. -/
def svData : Img → Except PyErr Bytes := fun i => .ok i.data

/-- A restore hook returning a fixed image. -/
def ldC : Bytes → Except PyErr Img := fun _ => .ok img8

/-- Structural equality comparison hook. -/
def cmpEq : Img → Img → Except PyErr Bool := fun x y => .ok (decide (x = y))

/-- An explicit encoder hook (the non-auto-saving case). -/
def encId : Img → Except PyErr Img := fun i => .ok i


/-- An auto-saving codec whose persist hook writes exactly `N/2` bytes for an
image of element count `N`, and whose round trip restores the image. -/
def halfEntry : StoredEntry Img :=
  { model := none,
    preprocess := fun i => .ok i,
    save := fun i => .ok (List.replicate (i.size / 2) 0),
    load := fun _ => .ok img8,
    compare := fun x y => .ok (decide (x = y)) }

/-- A lossy codec: `load` restores a different image, so the (structural
equality) comparison fails on every image. -/
def lossyEntry : StoredEntry Img :=
  { model := none,
    preprocess := fun i => .ok i,
    save := fun i => .ok i.data,
    load := fun _ => .ok img9,
    compare := fun x y => .ok (decide (x = y)) }

/-- A codec whose preprocess hook raises on the empty-payload image. -/
def failEntry : StoredEntry Img :=
  { model := none,
    preprocess := fun i => if i.data = [] then .error (.hook 7) else .ok i,
    save := fun i => .ok i.data,
    load := fun _ => .ok img8,
    compare := fun x y => .ok (decide (x = y)) }

/-- One-image environment, unit elapsed times, display attempts succeed. -/
def envA : Env := { dataset := [img8], times := fun _ => 1, disp := fun _ => none }

/-- Two-image environment whose second image has an empty payload. -/
def envB : Env := { dataset := [img8, imgE], times := fun _ => 1, disp := fun _ => none }

/-- Like `envA` but every diagnostic display attempt fails at its third
action (the first join). -/
def envD : Env := { dataset := [img8], times := fun _ => 1, disp := fun _ => some 2 }

/-! ### Basic lemmas about the `Except` plumbing -/

theorem ebind_ok {A B : Type} (a : A) (f : A → Except PyErr B) :
    (Except.ok a >>= f) = f a := rfl

theorem ebind_err {A B : Type} (er : PyErr) (f : A → Except PyErr B) :
    ((Except.error er : Except PyErr A) >>= f) = .error er := rfl

theorem pydiv_ok {a b q : ℚ} : pydiv a b = .ok q ↔ b ≠ 0 ∧ q = a / b := by
  unfold pydiv
  split
  · next hb => simp [hb]
  · next hb => simp [hb, eq_comm]

/-! ### Characterization of one measurement step -/

/-- Everything a successful `benchStep` does, in one statement: the hook
outcomes it is built from, the nonzero divisors it implies, the final state
fields and the three metric values. -/
theorem benchStep_ok {α : Type} {env : Env} {e : StoredEntry α} {image : α} {length : Nat}
    {s s' : RunSt} {b c d : ℚ}
    (h : benchStep env e image length s = .ok (s', b, c, d)) :
    ∃ bytes raw loaded same,
      encodeSave e image = .ok bytes ∧
      e.load bytes = .ok raw ∧
      e.preprocess raw = .ok loaded ∧
      e.compare image loaded = .ok same ∧
      (length : ℚ) ≠ 0 ∧ env.times s.clock ≠ 0 ∧ env.times (s.clock + 1) ≠ 0 ∧
      s'.slot = none ∧
      s'.flag = (if same = false ∧ s.flag = false then true else s.flag) ∧
      s'.clock = s.clock + 2 ∧
      s'.diag = (if same = false ∧ s.flag = false then s.diag + 1 else s.diag) ∧
      s'.trace = s.trace ++ [Ev.write bytes, Ev.loadSz raw.itemsize, Ev.cmp same] ++
        (if same = false ∧ s.flag = false then Ev.warn :: dispEvs (env.disp s.diag) else []) ++
        [Ev.size bytes.length, Ev.remove] ∧
      b = ((bytes.length * 8 : Nat) : ℚ) / (length : ℚ) ∧
      c = ((length : ℚ) * ((raw.itemsize * 8 : Nat) : ℚ) / (8 * 10 ^ 6)) / env.times s.clock ∧
      d = ((length : ℚ) * ((raw.itemsize * 8 : Nat) : ℚ) / (8 * 10 ^ 6)) / env.times (s.clock + 1) := by
  unfold benchStep at h
  rcases hc : encodeSave e image with er | bytes
  · simp only [hc, ebind_err] at h
    exact absurd h (by simp)
  simp only [hc, ebind_ok, readSlot] at h
  rcases hl : e.load bytes with er | raw
  · simp only [hl, ebind_err] at h
    exact absurd h (by simp)
  simp only [hl, ebind_ok] at h
  rcases hp : e.preprocess raw with er | loaded
  · simp only [hp, ebind_err] at h
    exact absurd h (by simp)
  simp only [hp, ebind_ok] at h
  rcases hq : e.compare image loaded with er | same
  · simp only [hq, ebind_err] at h
    exact absurd h (by simp)
  simp only [hq, ebind_ok] at h
  simp only [apply_ite RunSt.slot, apply_ite RunSt.flag, apply_ite RunSt.diag,
    apply_ite RunSt.trace, ite_self, getsize, ebind_ok] at h
  rcases h1 : pydiv ((bytes.length * 8 : Nat) : ℚ) ((length : Nat) : ℚ) with er | q1
  · simp only [h1, ebind_err] at h
    exact absurd h (by simp)
  simp only [h1, ebind_ok] at h
  rcases h2 : pydiv ((length : ℚ) * ((raw.itemsize * 8 : Nat) : ℚ) / (8 * 10 ^ 6))
      (env.times s.clock) with er | q2
  · simp only [h2, ebind_err] at h
    exact absurd h (by simp)
  simp only [h2, ebind_ok] at h
  rcases h3 : pydiv ((length : ℚ) * ((raw.itemsize * 8 : Nat) : ℚ) / (8 * 10 ^ 6))
      (env.times (s.clock + 1)) with er | q3
  · simp only [h3, ebind_err] at h
    exact absurd h (by simp)
  simp only [h3, ebind_ok, Except.ok.injEq, Prod.mk.injEq] at h
  obtain ⟨hs, hb, hcq, hd⟩ := h
  obtain ⟨hlen, hq1⟩ := pydiv_ok.mp h1
  obtain ⟨ht1, hq2⟩ := pydiv_ok.mp h2
  obtain ⟨ht2, hq3⟩ := pydiv_ok.mp h3
  subst hs hb hcq hd
  refine ⟨bytes, raw, loaded, same, rfl, hl, hp, hq, hlen, ht1, ht2, ?_⟩
  subst hq1 hq2 hq3
  by_cases hm : same = false ∧ s.flag = false <;>
    simp [hm, List.append_assoc]

/-! ### Trace extraction lemmas -/

theorem sizesIn_append (a b : List Ev) : sizesIn (a ++ b) = sizesIn a ++ sizesIn b := by
  simp [sizesIn, List.filterMap_append]

theorem itemsIn_append (a b : List Ev) : itemsIn (a ++ b) = itemsIn a ++ itemsIn b := by
  simp [itemsIn, List.filterMap_append]

theorem cmpsIn_append (a b : List Ev) : cmpsIn (a ++ b) = cmpsIn a ++ cmpsIn b := by
  simp [cmpsIn, List.filterMap_append]

theorem warnCount_append (a b : List Ev) : warnCount (a ++ b) = warnCount a + warnCount b := by
  simp [warnCount, List.filter_append]

theorem stripDisp_append (a b : List Ev) : stripDisp (a ++ b) = stripDisp a ++ stripDisp b := by
  simp [stripDisp, List.filter_append]

@[simp] theorem sizesIn_nil : sizesIn [] = [] := rfl

@[simp] theorem sizesIn_write (b : Bytes) (tr : List Ev) :
    sizesIn (Ev.write b :: tr) = sizesIn tr := rfl

@[simp] theorem sizesIn_loadSz (n : Nat) (tr : List Ev) :
    sizesIn (Ev.loadSz n :: tr) = sizesIn tr := rfl

@[simp] theorem sizesIn_cmp (b : Bool) (tr : List Ev) :
    sizesIn (Ev.cmp b :: tr) = sizesIn tr := rfl

@[simp] theorem sizesIn_warn (tr : List Ev) : sizesIn (Ev.warn :: tr) = sizesIn tr := rfl

@[simp] theorem sizesIn_size (n : Nat) (tr : List Ev) :
    sizesIn (Ev.size n :: tr) = n :: sizesIn tr := rfl

@[simp] theorem sizesIn_remove (tr : List Ev) : sizesIn (Ev.remove :: tr) = sizesIn tr := rfl

@[simp] theorem itemsIn_nil : itemsIn [] = [] := rfl

@[simp] theorem itemsIn_write (b : Bytes) (tr : List Ev) :
    itemsIn (Ev.write b :: tr) = itemsIn tr := rfl

@[simp] theorem itemsIn_loadSz (n : Nat) (tr : List Ev) :
    itemsIn (Ev.loadSz n :: tr) = n :: itemsIn tr := rfl

@[simp] theorem itemsIn_cmp (b : Bool) (tr : List Ev) :
    itemsIn (Ev.cmp b :: tr) = itemsIn tr := rfl

@[simp] theorem itemsIn_warn (tr : List Ev) : itemsIn (Ev.warn :: tr) = itemsIn tr := rfl

@[simp] theorem itemsIn_size (n : Nat) (tr : List Ev) :
    itemsIn (Ev.size n :: tr) = itemsIn tr := rfl

@[simp] theorem itemsIn_remove (tr : List Ev) : itemsIn (Ev.remove :: tr) = itemsIn tr := rfl

@[simp] theorem cmpsIn_nil : cmpsIn [] = [] := rfl

@[simp] theorem cmpsIn_write (b : Bytes) (tr : List Ev) :
    cmpsIn (Ev.write b :: tr) = cmpsIn tr := rfl

@[simp] theorem cmpsIn_loadSz (n : Nat) (tr : List Ev) :
    cmpsIn (Ev.loadSz n :: tr) = cmpsIn tr := rfl

@[simp] theorem cmpsIn_cmp (b : Bool) (tr : List Ev) :
    cmpsIn (Ev.cmp b :: tr) = b :: cmpsIn tr := rfl

@[simp] theorem cmpsIn_warn (tr : List Ev) : cmpsIn (Ev.warn :: tr) = cmpsIn tr := rfl

@[simp] theorem cmpsIn_size (n : Nat) (tr : List Ev) :
    cmpsIn (Ev.size n :: tr) = cmpsIn tr := rfl

@[simp] theorem cmpsIn_remove (tr : List Ev) : cmpsIn (Ev.remove :: tr) = cmpsIn tr := rfl

@[simp] theorem warnCount_nil : warnCount [] = 0 := rfl

@[simp] theorem warnCount_write (b : Bytes) (tr : List Ev) :
    warnCount (Ev.write b :: tr) = warnCount tr := rfl

@[simp] theorem warnCount_loadSz (n : Nat) (tr : List Ev) :
    warnCount (Ev.loadSz n :: tr) = warnCount tr := rfl

@[simp] theorem warnCount_cmp (b : Bool) (tr : List Ev) :
    warnCount (Ev.cmp b :: tr) = warnCount tr := rfl

@[simp] theorem warnCount_warn (tr : List Ev) :
    warnCount (Ev.warn :: tr) = warnCount tr + 1 := by
  simp [warnCount, List.filter_cons]

@[simp] theorem warnCount_size (n : Nat) (tr : List Ev) :
    warnCount (Ev.size n :: tr) = warnCount tr := rfl

@[simp] theorem warnCount_remove (tr : List Ev) : warnCount (Ev.remove :: tr) = warnCount tr := rfl

@[simp] theorem stripDisp_nil : stripDisp [] = [] := rfl

@[simp] theorem stripDisp_write (b : Bytes) (tr : List Ev) :
    stripDisp (Ev.write b :: tr) = Ev.write b :: stripDisp tr := rfl

@[simp] theorem stripDisp_loadSz (n : Nat) (tr : List Ev) :
    stripDisp (Ev.loadSz n :: tr) = Ev.loadSz n :: stripDisp tr := rfl

@[simp] theorem stripDisp_cmp (b : Bool) (tr : List Ev) :
    stripDisp (Ev.cmp b :: tr) = Ev.cmp b :: stripDisp tr := rfl

@[simp] theorem stripDisp_warn (tr : List Ev) :
    stripDisp (Ev.warn :: tr) = Ev.warn :: stripDisp tr := rfl

@[simp] theorem stripDisp_dispStart (k : Nat) (tr : List Ev) :
    stripDisp (Ev.dispStart k :: tr) = stripDisp tr := rfl

@[simp] theorem stripDisp_dispJoin (k : Nat) (tr : List Ev) :
    stripDisp (Ev.dispJoin k :: tr) = stripDisp tr := rfl

@[simp] theorem stripDisp_size (n : Nat) (tr : List Ev) :
    stripDisp (Ev.size n :: tr) = Ev.size n :: stripDisp tr := rfl

@[simp] theorem stripDisp_remove (tr : List Ev) :
    stripDisp (Ev.remove :: tr) = Ev.remove :: stripDisp tr := rfl

theorem sizesIn_dispEvs : ∀ o, sizesIn (dispEvs o) = [] := by decide

theorem itemsIn_dispEvs : ∀ o, itemsIn (dispEvs o) = [] := by decide

theorem cmpsIn_dispEvs : ∀ o, cmpsIn (dispEvs o) = [] := by decide

theorem warnCount_dispEvs : ∀ o, warnCount (dispEvs o) = 0 := by decide

theorem stripDisp_dispEvs : ∀ o, stripDisp (dispEvs o) = [] := by decide

theorem sizesIn_stepEvs (bytes : Bytes) (item : Nat) (same flag : Bool) (o : Option (Fin 4)) :
    sizesIn (stepEvs bytes item same flag o) = [bytes.length] := by
  by_cases hc : same = false ∧ flag = false <;>
    simp [stepEvs, hc, sizesIn_append, sizesIn_dispEvs]

theorem itemsIn_stepEvs (bytes : Bytes) (item : Nat) (same flag : Bool) (o : Option (Fin 4)) :
    itemsIn (stepEvs bytes item same flag o) = [item] := by
  by_cases hc : same = false ∧ flag = false <;>
    simp [stepEvs, hc, itemsIn_append, itemsIn_dispEvs]

theorem cmpsIn_stepEvs (bytes : Bytes) (item : Nat) (same flag : Bool) (o : Option (Fin 4)) :
    cmpsIn (stepEvs bytes item same flag o) = [same] := by
  by_cases hc : same = false ∧ flag = false <;>
    simp [stepEvs, hc, cmpsIn_append, cmpsIn_dispEvs]

theorem warnCount_stepEvs (bytes : Bytes) (item : Nat) (same flag : Bool) (o : Option (Fin 4)) :
    warnCount (stepEvs bytes item same flag o) = if same = false ∧ flag = false then 1 else 0 := by
  by_cases hc : same = false ∧ flag = false <;>
    simp [stepEvs, hc, warnCount_append, warnCount_dispEvs]

theorem isIterBlock_stepEvs (bytes : Bytes) (item : Nat) (same flag : Bool) (o : Option (Fin 4)) :
    IsIterBlock (stepEvs bytes item same flag o) := by
  refine ⟨bytes, item, same, if same = false ∧ flag = false then Ev.warn :: dispEvs o else [],
    ?_, rfl⟩
  by_cases hc : same = false ∧ flag = false
  · exact Or.inr ⟨o, by simp [hc]⟩
  · exact Or.inl (by simp [hc])

theorem flag_ite (same flag : Bool) :
    (if same = false ∧ flag = false then true else flag) = (flag || ! same) := by
  cases same <;> cases flag <;> simp

/-- Lemma `benchStep_ok` restated through `stepEvs`. -/
theorem benchStep_ok' {α : Type} {env : Env} {e : StoredEntry α} {image : α} {length : Nat}
    {s s' : RunSt} {b c d : ℚ}
    (h : benchStep env e image length s = .ok (s', b, c, d)) :
    ∃ bytes raw loaded same,
      encodeSave e image = .ok bytes ∧
      e.load bytes = .ok raw ∧
      e.preprocess raw = .ok loaded ∧
      e.compare image loaded = .ok same ∧
      (length : ℚ) ≠ 0 ∧ env.times s.clock ≠ 0 ∧ env.times (s.clock + 1) ≠ 0 ∧
      s'.slot = none ∧
      s'.flag = (s.flag || ! same) ∧
      s'.clock = s.clock + 2 ∧
      s'.trace = s.trace ++ stepEvs bytes raw.itemsize same s.flag (env.disp s.diag) ∧
      b = ((bytes.length * 8 : Nat) : ℚ) / ((length : Nat) : ℚ) ∧
      c = ((length : ℚ) * ((raw.itemsize * 8 : Nat) : ℚ) / (8 * 10 ^ 6)) / env.times s.clock ∧
      d = ((length : ℚ) * ((raw.itemsize * 8 : Nat) : ℚ) / (8 * 10 ^ 6)) / env.times (s.clock + 1) := by
  obtain ⟨bytes, raw, loaded, same, hc, hl, hp, hq, hlen, ht1, ht2, hslot, hflag, hclock,
    hdiag, htrace, hb, hcm, hd⟩ := benchStep_ok h
  refine ⟨bytes, raw, loaded, same, hc, hl, hp, hq, hlen, ht1, ht2, hslot, ?_, hclock, ?_, hb, hcm, hd⟩
  · rw [hflag, flag_ite]
  · rw [htrace]
    simp [stepEvs, List.append_assoc]

/-! ### The inner measurement loop -/

/-- Master invariant of the inner measurement loop. -/
theorem benchLoop_spec {α : Type} {env : Env} {e : StoredEntry α} :
    ∀ {pairs : List (α × Nat)} {s s' : RunSt} {bs cs ds : List ℚ},
      benchLoop env e pairs s = .ok (s', bs, cs, ds) →
      ∃ tr, LoopFacts env pairs s s' bs cs ds tr := by
  intro pairs
  induction pairs with
  | nil =>
      intro s s' bs cs ds h
      simp only [benchLoop, Except.ok.injEq, Prod.mk.injEq] at h
      obtain ⟨h1, h2, h3, h4⟩ := h
      subst h1 h2 h3 h4
      refine ⟨[], ?_, ?_, ?_, ?_, ?_, ?_, ?_, ?_, ?_, ?_, ?_, ?_⟩
      · simp
      · rfl
      · rfl
      · rfl
      · simp
      · simp
      · simp
      · simp
      · exact ⟨[], by simp, by simp⟩
      · simp
      · exact fun i hi => absurd hi (Nat.not_lt_zero i)
      · exact fun i hi => absurd hi (Nat.not_lt_zero i)
  | cons p rest ih =>
      obtain ⟨a, n⟩ := p
      intro s s' bs cs ds h
      rcases hstep : benchStep env e a n s with er | x
      · simp only [benchLoop, hstep, ebind_err] at h
        exact absurd h (by simp)
      obtain ⟨s1, b1, c1, d1⟩ := x
      simp only [benchLoop, hstep, ebind_ok] at h
      rcases hrest : benchLoop env e rest s1 with er | y
      · simp only [hrest, ebind_err] at h
        exact absurd h (by simp)
      obtain ⟨s2, bs', cs', ds'⟩ := y
      simp only [hrest, ebind_ok, Except.ok.injEq, Prod.mk.injEq] at h
      obtain ⟨h1, h2, h3, h4⟩ := h
      subst h1 h2 h3 h4
      obtain ⟨bytes, raw, loaded, same, hcE, hlE, hpE, hqE, hlen, ht1, ht2, hslot1,
        hflag1, hclock1, htrace1, hb1, hc1, hd1⟩ := benchStep_ok' hstep
      obtain ⟨tr', F⟩ := ih hrest
      refine ⟨stepEvs bytes raw.itemsize same s.flag (env.disp s.diag) ++ tr',
        ?_, ?_, ?_, ?_, ?_, ?_, ?_, ?_, ?_, ?_, ?_, ?_⟩
      · rw [F.trace_eq, htrace1, List.append_assoc]
      · simp [F.bs_len]
      · simp [F.cs_len]
      · simp [F.ds_len]
      · rw [F.clock_eq, hclock1]
        simp only [List.length_cons]
        ring
      · simp only [List.isEmpty_cons, Bool.false_eq_true, if_false]
        rw [F.slot_eq, hslot1, ite_self]
      · rw [F.flag_eq, hflag1, cmpsIn_append, cmpsIn_stepEvs, List.singleton_append,
          List.any_cons]
        cases same <;> cases s.flag <;> simp
      · rw [warnCount_append, warnCount_stepEvs, F.warn_eq, hflag1, cmpsIn_append,
          cmpsIn_stepEvs, List.singleton_append, List.any_cons]
        cases same <;> cases s.flag <;> simp
      · obtain ⟨blocks', htr', hbl'⟩ := F.blocks
        refine ⟨stepEvs bytes raw.itemsize same s.flag (env.disp s.diag) :: blocks',
          by rw [List.flatten_cons, htr'], ?_⟩
        intro bl hbl
        rcases List.mem_cons.mp hbl with hbl | hbl
        · rw [hbl]; exact isIterBlock_stepEvs _ _ _ _ _
        · exact hbl' bl hbl
      · rw [sizesIn_append, sizesIn_stepEvs, List.singleton_append, List.map_cons,
          List.zipWith_cons_cons]
        rw [hb1, F.bs_eq]
      · intro i hi
        rw [itemsIn_append, itemsIn_stepEvs, List.singleton_append]
        cases i with
        | zero =>
            simp only [List.getD_cons_zero, List.map_cons]
            rw [hc1]
            try norm_num
        | succ j =>
            have hj : j < rest.length := by simpa using hi
            have hF := F.cs_eq j hj
            rw [hclock1] at hF
            simp only [List.getD_cons_succ, List.map_cons]
            rw [hF]
            have harg : s.clock + 2 + 2 * j = s.clock + 2 * (j + 1) := by ring
            rw [harg]
      · intro i hi
        rw [itemsIn_append, itemsIn_stepEvs, List.singleton_append]
        cases i with
        | zero =>
            simp only [List.getD_cons_zero, List.map_cons]
            rw [hd1]
            try norm_num
        | succ j =>
            have hj : j < rest.length := by simpa using hi
            have hF := F.ds_eq j hj
            rw [hclock1] at hF
            simp only [List.getD_cons_succ, List.map_cons]
            rw [hF]
            have harg : s.clock + 2 + 2 * j + 1 = s.clock + 2 * (j + 1) + 1 := by ring
            rw [harg]

/-! ### The dataset preprocessing pass and per-model runs -/

theorem mapExcept_ok_length {α : Type} {f : Img → Except PyErr α} :
    ∀ {l : List Img} {ys : List α}, mapExcept f l = .ok ys → ys.length = l.length := by
  intro l
  induction l with
  | nil =>
      intro ys h
      simp only [mapExcept, Except.ok.injEq] at h
      subst h
      rfl
  | cons x xs ih =>
      intro ys h
      rcases hx : f x with er | y
      · simp only [mapExcept, hx, ebind_err] at h
        exact absurd h (by simp)
      simp only [mapExcept, hx, ebind_ok] at h
      rcases hxs : mapExcept f xs with er | ys'
      · simp only [hxs, ebind_err] at h
        exact absurd h (by simp)
      simp only [hxs, ebind_ok, Except.ok.injEq] at h
      subst h
      simp [ih hxs]

theorem mapExcept_error {α : Type} {f : Img → Except PyErr α} {img : Img} {err : PyErr} :
    ∀ {pre : List Img} (post : List Img), (∀ x ∈ pre, ∃ y, f x = .ok y) →
      f img = .error err → mapExcept f (pre ++ img :: post) = .error err := by
  intro pre
  induction pre with
  | nil =>
      intro post _ himg
      simp only [List.nil_append, mapExcept, himg, ebind_err]
  | cons x xs ih =>
      intro post hpre himg
      obtain ⟨y, hy⟩ := hpre x (by simp)
      have hih := ih post (fun z hz => hpre z (by simp [hz])) himg
      simp only [List.cons_append, List.append_eq, mapExcept, hy, ebind_ok, hih, ebind_err]

theorem zipWith_ext {A B C : Type} (f g : A → B → C) (h : ∀ a b, f a b = g a b) :
    ∀ (l₁ : List A) (l₂ : List B), List.zipWith f l₁ l₂ = List.zipWith g l₁ l₂ := by
  intro l₁
  induction l₁ with
  | nil => intro l₂; rfl
  | cons a as ih =>
      intro l₂
      cases l₂ with
      | nil => rfl
      | cons b bs => simp [h a b, ih bs]

/-- Successful per-model runs decompose into a successful eager preprocessing
pass over the whole dataset followed by the measurement loop over the first
`num` (preprocessed image, element count) pairs. -/
theorem benchModel_spec {α : Type} {env : Env} {e : StoredEntry α} {num : Nat}
    {s s' : RunSt} {bs cs ds : List ℚ}
    (h : benchModel env e num s = .ok (s', bs, cs, ds)) :
    ∃ ds0 tr, mapExcept e.preprocess env.dataset = .ok ds0 ∧
      ds0.length = env.dataset.length ∧
      LoopFacts env ((ds0.zip (lensOf env.dataset)).take num) s s' bs cs ds tr ∧
      ((ds0.zip (lensOf env.dataset)).take num).map Prod.snd = (lensOf env.dataset).take num ∧
      ((ds0.zip (lensOf env.dataset)).take num).length = min num env.dataset.length := by
  unfold benchModel at h
  rcases hmap : mapExcept e.preprocess env.dataset with er | ds0
  · simp only [hmap, ebind_err] at h
    exact absurd h (by simp)
  simp only [hmap, ebind_ok] at h
  obtain ⟨tr, F⟩ := benchLoop_spec h
  have hlen : ds0.length = env.dataset.length := mapExcept_ok_length hmap
  have hlens : (lensOf env.dataset).length = env.dataset.length := by simp [lensOf]
  refine ⟨ds0, tr, rfl, hlen, F, ?_, ?_⟩
  · rw [List.map_take, List.map_snd_zip]
    rw [hlen, hlens]
  · rw [List.length_take, List.length_zip, hlen, hlens, Nat.min_self]

/-! ### The outer loop over models and the full benchmark -/

/-- Master invariant of the outer loop over all registered models. -/
theorem benchAll_spec {α : Type} {env : Env} :
    ∀ {models : Models α} {num : Nat} {s s' : RunSt}
      {results : List (String × List ℚ × List ℚ × List ℚ)},
      benchAll env models num s = .ok (s', results) →
      ∃ tr, s'.trace = s.trace ++ tr ∧
        s'.flag = (s.flag || (cmpsIn tr).any (fun x => ! x)) ∧
        warnCount tr = (if s.flag = false ∧ (cmpsIn tr).any (fun x => ! x) = true then 1 else 0) ∧
        (∃ blocks : List (List Ev), tr = blocks.flatten ∧ ∀ bl ∈ blocks, IsIterBlock bl) ∧
        results.length = models.length ∧
        (∀ r ∈ results, r.2.1.length = min num env.dataset.length ∧
          r.2.2.1.length = min num env.dataset.length ∧
          r.2.2.2.length = min num env.dataset.length) := by
  intro models
  induction models with
  | nil =>
      intro num s s' results h
      simp only [benchAll, Except.ok.injEq, Prod.mk.injEq] at h
      obtain ⟨h1, h2⟩ := h
      subst h1 h2
      exact ⟨[], by simp, by simp, by simp, ⟨[], by simp, by simp⟩, rfl, by simp⟩
  | cons p rest ih =>
      obtain ⟨nm, e⟩ := p
      intro num s s' results h
      rcases hm : benchModel env e num s with er | x
      · simp only [benchAll, hm, ebind_err] at h
        exact absurd h (by simp)
      obtain ⟨s1, bs, cs, ds⟩ := x
      simp only [benchAll, hm, ebind_ok] at h
      rcases hrest : benchAll env rest num s1 with er | y
      · simp only [hrest, ebind_err] at h
        exact absurd h (by simp)
      obtain ⟨s2, tail⟩ := y
      simp only [hrest, ebind_ok, Except.ok.injEq, Prod.mk.injEq] at h
      obtain ⟨h1, h2⟩ := h
      subst h1 h2
      obtain ⟨ds0, tr1, hmap, hlen0, F, hsnd, hplen⟩ := benchModel_spec hm
      obtain ⟨tr2, htr2, hflag2, hwarn2, hblocks2, hrlen2, hall2⟩ := ih hrest
      refine ⟨tr1 ++ tr2, ?_, ?_, ?_, ?_, ?_, ?_⟩
      · rw [htr2, F.trace_eq, List.append_assoc]
      · rw [hflag2, F.flag_eq, cmpsIn_append, List.any_append]
        cases s.flag <;> simp [Bool.or_assoc]
      · rw [warnCount_append, F.warn_eq, hwarn2, F.flag_eq, cmpsIn_append, List.any_append]
        cases hbf : s.flag <;> cases hb1 : (cmpsIn tr1).any (fun x => ! x) <;>
          cases hb2 : (cmpsIn tr2).any (fun x => ! x) <;> simp
      · obtain ⟨blocks1, hb1, hib1⟩ := F.blocks
        obtain ⟨blocks2, hb2, hib2⟩ := hblocks2
        refine ⟨blocks1 ++ blocks2, by rw [List.flatten_append, hb1, hb2], ?_⟩
        intro bl hbl
        rcases List.mem_append.mp hbl with hbl | hbl
        · exact hib1 bl hbl
        · exact hib2 bl hbl
      · simp [hrlen2]
      · intro r hr
        rcases List.mem_cons.mp hr with hr | hr
        · subst hr
          refine ⟨?_, ?_, ?_⟩
          · rw [F.bs_len, hplen]
          · rw [F.cs_len, hplen]
          · rw [F.ds_len, hplen]
        · exact hall2 r hr

/-- Inverting a successful `benchmark` call into its measurement phase and
its reporting phase. -/
theorem benchmark_ok {α : Type} {env : Env} {models : Models α} {num : Nat}
    {slot0 : Option Bytes} {st : RunSt}
    {results : List (String × List ℚ × List ℚ × List ℚ)}
    {means : List (String × ℚ × ℚ × ℚ)}
    (h : benchmark env models num slot0 = .ok (st, results, means)) :
    benchAll env models num
        { slot := slot0, flag := false, clock := 0, diag := 0, trace := [] } =
      .ok (st, results) ∧ report results = .ok means := by
  unfold benchmark at h
  rcases ha : benchAll env models num
      { slot := slot0, flag := false, clock := 0, diag := 0, trace := [] } with er | x
  · simp only [ha, ebind_err] at h
    exact absurd h (by simp)
  obtain ⟨s1, results1⟩ := x
  simp only [ha, ebind_ok] at h
  rcases hr : report results1 with er | means1
  · simp only [hr, ebind_err] at h
    exact absurd h (by simp)
  simp only [hr, ebind_ok, Except.ok.injEq, Prod.mk.injEq] at h
  obtain ⟨h1, h2, h3⟩ := h
  subst h1 h2 h3
  exact ⟨rfl, hr⟩

/-- The reporting loop raises `ZeroDivisionError` on a model whose metric
lists are empty. -/
theorem report_empty_head (nm : String) (cs ds : List ℚ)
    (rest : List (String × List ℚ × List ℚ × List ℚ)) :
    report ((nm, [], cs, ds) :: rest) = .error .zeroDiv := by
  simp only [report, mean, pydiv, List.sum_nil, List.length_nil]
  norm_num
  rfl

/-! ### Registry lemmas -/

theorem find_none_of_not_contains {α : Type} {k : String} :
    ∀ {ms : Models α}, containsModel ms k = false →
      ms.find? (fun p => p.1 = k) = none := by
  intro ms
  induction ms with
  | nil => intro _; rfl
  | cons p t ih =>
      intro h
      simp only [containsModel, List.any_cons, Bool.or_eq_false_iff] at h
      obtain ⟨h1, h2⟩ := h
      rw [List.find?_cons_of_neg _ (by simpa using h1)]
      exact ih h2

theorem lookup_insert {α : Type} (k : String) (v : StoredEntry α) :
    ∀ (ms : Models α), lookupModel (insertModel ms k v) k = some v := by
  intro ms
  unfold insertModel
  by_cases hc : containsModel ms k = true
  · rw [if_pos hc]
    unfold lookupModel
    induction ms with
    | nil => simp [containsModel] at hc
    | cons p t ih =>
        by_cases hp : p.1 = k
        · simp only [List.map_cons, if_pos hp]
          rw [List.find?_cons_of_pos _ (by simp)]
          rfl
        · simp only [List.map_cons, if_neg hp]
          rw [List.find?_cons_of_neg _ (by simpa using hp)]
          apply ih
          simp only [containsModel, List.any_cons, Bool.or_eq_true] at hc
          rcases hc with hc | hc
          · exact absurd (by simpa using hc) hp
          · exact hc
  · rw [if_neg hc]
    unfold lookupModel
    induction ms with
    | nil => rw [List.nil_append, List.find?_cons_of_pos _ (by simp)]; rfl
    | cons p t ih =>
        simp only [containsModel, List.any_cons, Bool.or_eq_true, not_or] at hc
        obtain ⟨h1, h2⟩ := hc
        rw [List.cons_append, List.find?_cons_of_neg _ (by simpa using h1)]
        exact ih (by simpa [containsModel] using h2)

theorem find_erase_none {α : Type} (k : String) :
    ∀ (ms : Models α), (eraseModel ms k).find? (fun p => p.1 = k) = none := by
  intro ms
  induction ms with
  | nil => rfl
  | cons p t ih =>
      unfold eraseModel
      by_cases hp : p.1 = k
      · rw [List.filter_cons_of_neg (by simp [hp])]
        exact ih
      · rw [List.filter_cons_of_pos (by simpa using hp)]
        rw [List.find?_cons_of_neg _ (by simpa using hp)]
        exact ih

theorem lookup_erase {α : Type} (ms : Models α) (k : String) :
    lookupModel (eraseModel ms k) k = none := by
  unfold lookupModel
  rw [find_erase_none k ms]
  rfl

theorem lookup_of_not_contains {α : Type} {ms : Models α} {k : String}
    (h : containsModel ms k = false) : lookupModel ms k = none := by
  unfold lookupModel
  rw [find_none_of_not_contains h]
  rfl

/-- On acceptance, `set_model` stores exactly the hook-bundle dictionary of
llimcobe.py line 57. -/
theorem set_model_accepted {α : Type} [DecidableEq α] {ms : Models α} {name : String}
    {model : Option (α → Except PyErr α)} {preprocess : Img → Except PyErr α}
    {sv : α → Except PyErr Bytes} {ld : Bytes → Except PyErr Img}
    {compare : Option (α → α → Except PyErr Bool)}
    (h : (set_model ms name model preprocess (some sv) (some ld) compare).2 = true) :
    (set_model ms name model preprocess (some sv) (some ld) compare).1 =
      insertModel ms name
        { model := model, preprocess := preprocess, save := sv, load := ld,
          compare := compare.getD (fun x y => .ok (decide (x = y))) } := by
  unfold set_model at h ⊢
  split_ifs at h ⊢ with hc
  · rfl

/-! ### Claims about the model registry -/

/-- C3: `set_model` accepts — stores an entry under the name and returns
true — exactly when `name`, `save` and `load` are all provided (truthy),
whether or not `model` is provided; in every other case it returns false
and leaves the registry unchanged.  The embedding is a total function, so
no exception is raised. -/
theorem claim_C3 {α : Type} [DecidableEq α] (ms : Models α) (name : String)
    (model : Option (α → Except PyErr α)) (preprocess : Img → Except PyErr α)
    (save : Option (α → Except PyErr Bytes)) (load : Option (Bytes → Except PyErr Img))
    (compare : Option (α → α → Except PyErr Bool)) :
    ((set_model ms name model preprocess save load compare).2 = true ↔
      (name ≠ "" ∧ save.isSome = true ∧ load.isSome = true)) ∧
    ((set_model ms name model preprocess save load compare).2 = true →
      (lookupModel (set_model ms name model preprocess save load compare).1 name).isSome
        = true) ∧
    ((set_model ms name model preprocess save load compare).2 = false →
      (set_model ms name model preprocess save load compare).1 = ms) := by
  refine ⟨?_, ?_, ?_⟩
  · cases save <;> cases load <;> simp [set_model] <;> split_ifs <;> simp_all <;> tauto
  · intro h
    cases save with
    | none => simp [set_model] at h
    | some sv =>
        cases load with
        | none => simp [set_model] at h
        | some ld =>
            rw [set_model_accepted h, lookup_insert]
            rfl
  · intro h
    unfold set_model at h ⊢
    split_ifs at h ⊢ with hc
    · exact absurd h (by cases save <;> cases load <;> simp_all)
    · rfl

/-- C3 witness: a registration with name, save and load provided and `model`
absent is accepted; one with an empty name is rejected and leaves the
registry unchanged. -/
theorem claim_C3_witness :
    ((set_model ([] : Models Img) "m" none preId (some svData) (some ldC) none).2 = true) ∧
    ((set_model ([] : Models Img) "" (some encId) preId (some svData) (some ldC) none).1
      = []) := by
  constructor
  · exact (claim_C3 [] "m" none preId (some svData) (some ldC) none).1.mpr
      ⟨by decide, rfl, rfl⟩
  · exact (claim_C3 [] "" (some encId) preId (some svData) (some ldC) none).2.2 (by rfl)

/-- C4: after a successful registration, `get_model` returns the `model`
hook when one was provided, else the `save` hook; `get_model` of an
unregistered name returns `False`; `del_model` of a registered name returns
true and a subsequent `get_model` returns `False`, while `del_model` of an
unknown name returns false. -/
theorem claim_C4 {α : Type} [DecidableEq α] :
    (∀ (ms : Models α) (name : String) (m : α → Except PyErr α)
      (preprocess : Img → Except PyErr α) (sv : α → Except PyErr Bytes)
      (ld : Bytes → Except PyErr Img) (compare : Option (α → α → Except PyErr Bool)),
      (set_model ms name (some m) preprocess (some sv) (some ld) compare).2 = true →
      get_model (set_model ms name (some m) preprocess (some sv) (some ld) compare).1 name
        = some (Hook.enc m)) ∧
    (∀ (ms : Models α) (name : String)
      (preprocess : Img → Except PyErr α) (sv : α → Except PyErr Bytes)
      (ld : Bytes → Except PyErr Img) (compare : Option (α → α → Except PyErr Bool)),
      (set_model ms name none preprocess (some sv) (some ld) compare).2 = true →
      get_model (set_model ms name none preprocess (some sv) (some ld) compare).1 name
        = some (Hook.sv sv)) ∧
    (∀ (ms : Models α) (name : String), containsModel ms name = false →
      get_model ms name = none) ∧
    (∀ (ms : Models α) (name : String), containsModel ms name = true →
      (del_model ms name).2 = true ∧ get_model (del_model ms name).1 name = none) ∧
    (∀ (ms : Models α) (name : String), containsModel ms name = false →
      (del_model ms name).2 = false) := by
  refine ⟨?_, ?_, ?_, ?_, ?_⟩
  · intro ms name m preprocess sv ld compare h
    rw [set_model_accepted h]
    unfold get_model
    rw [lookup_insert]
  · intro ms name preprocess sv ld compare h
    rw [set_model_accepted h]
    unfold get_model
    rw [lookup_insert]
  · intro ms name h
    unfold get_model
    rw [lookup_of_not_contains h]
  · intro ms name h
    unfold del_model
    rw [if_pos h]
    refine ⟨rfl, ?_⟩
    unfold get_model
    rw [lookup_erase]
  · intro ms name h
    unfold del_model
    rw [if_neg (by simp [h])]

/-- C4 witness: the auto-saving entry `halfEntry` registered as "m":
`get_model` falls back to its save hook; with an explicit encoder it returns
the encoder; deleting "m" succeeds and empties the lookup, deleting an
unknown name fails. -/
theorem claim_C4_witness :
    get_model (set_model ([] : Models Img) "m" none preId (some svData) (some ldC) none).1 "m"
      = some (Hook.sv svData) ∧
    get_model (set_model ([] : Models Img) "m" (some encId) preId (some svData) (some ldC)
      none).1 "m" = some (Hook.enc encId) ∧
    get_model ([] : Models Img) "m" = none ∧
    (del_model [("m", halfEntry)] "m").2 = true ∧
    get_model (del_model [("m", halfEntry)] "m").1 "m" = none ∧
    (del_model ([] : Models Img) "m").2 = false := by
  have h4 := (claim_C4 (α := Img)).2.2.2.1 [("m", halfEntry)] "m" (by decide)
  exact ⟨(claim_C4 (α := Img)).2.1 [] "m" preId svData ldC none rfl,
    (claim_C4 (α := Img)).1 [] "m" encId preId svData ldC none rfl,
    (claim_C4 (α := Img)).2.2.1 [] "m" rfl,
    h4.1, h4.2,
    (claim_C4 (α := Img)).2.2.2.2 [] "m" rfl⟩

/-- C8: in an accepted registration, an omitted `compare` defaults to the
structural-equality predicate (`lambda x, y: x == y`); a provided `compare`
callable is stored unchanged. -/
theorem claim_C8 {α : Type} [DecidableEq α] (ms : Models α) (name : String)
    (model : Option (α → Except PyErr α)) (preprocess : Img → Except PyErr α)
    (sv : α → Except PyErr Bytes) (ld : Bytes → Except PyErr Img) :
    ((set_model ms name model preprocess (some sv) (some ld) none).2 = true →
      ∃ e, lookupModel (set_model ms name model preprocess (some sv) (some ld) none).1 name
          = some e ∧
        ∀ x y : α, e.compare x y = .ok (decide (x = y))) ∧
    (∀ cmp : α → α → Except PyErr Bool,
      (set_model ms name model preprocess (some sv) (some ld) (some cmp)).2 = true →
      ∃ e, lookupModel
          (set_model ms name model preprocess (some sv) (some ld) (some cmp)).1 name
          = some e ∧ e.compare = cmp) := by
  constructor
  · intro h
    rw [set_model_accepted h, lookup_insert]
    exact ⟨_, rfl, fun x y => rfl⟩
  · intro cmp h
    rw [set_model_accepted h, lookup_insert]
    exact ⟨_, rfl, rfl⟩

/-- C8 witness: registering without a compare stores structural equality
(checked on two concrete images); registering with `cmpEq` stores `cmpEq`. -/
theorem claim_C8_witness :
    (∃ e, lookupModel (set_model ([] : Models Img) "m" none preId (some svData) (some ldC)
        none).1 "m" = some e ∧ ∀ x y : Img, e.compare x y = .ok (decide (x = y))) ∧
    (∃ e, lookupModel (set_model ([] : Models Img) "m" none preId (some svData) (some ldC)
        (some cmpEq)).1 "m" = some e ∧ e.compare = cmpEq) := by
  exact ⟨(claim_C8 [] "m" none preId svData ldC).1 rfl,
    (claim_C8 [] "m" none preId svData ldC).2 cmpEq rfl⟩

/-! ### Claims about the recorded metrics -/

/-- C1: for every measured (model, image) pair of a run, the recorded bpsp
equals `8*B/N`, where `B` is the byte size of the compressed artifact in the
scratch slot at measurement time (the `Ev.size` readings, in order) and `N`
is the precomputed element count `H*W*C` of that image (`lens`); in
particular the fake persist hook `halfEntry`, which writes exactly `N/2`
bytes, yields bpsp `4.0`. -/
theorem claim_C1 :
    (∀ (α : Type) (env : Env) (e : StoredEntry α) (num : Nat) (s : RunSt),
      isOkE (benchModel env e num s) = true →
      ∃ tr, (okSt (benchModel env e num s)).trace = s.trace ++ tr ∧
        okBs (benchModel env e num s) =
          List.zipWith (fun (B N : Nat) => (8 * (B : ℚ)) / ((N : Nat) : ℚ))
            (sizesIn tr) ((lensOf env.dataset).take num)) ∧
    okBs (benchModel envA halfEntry 1 rs0) = [4] := by
  constructor
  · intro α env e num s hok
    rcases hret : benchModel env e num s with er | x
    · rw [hret] at hok
      simp [isOkE] at hok
    obtain ⟨s', bs, cs, ds⟩ := x
    obtain ⟨ds0, tr, hmap, hlen0, F, hsnd, hplen⟩ := benchModel_spec hret
    refine ⟨tr, ?_, ?_⟩
    · simpa [okSt] using F.trace_eq
    · have hbs := F.bs_eq
      rw [hsnd] at hbs
      simp only [okBs]
      rw [hbs]
      apply zipWith_ext
      intro a b
      push_cast
      ring
  · simp [benchModel, benchLoop, benchStep, mapExcept, encodeSave, envA, halfEntry, rs0,
      readSlot, getsize, pydiv, lensOf, img8, Img.size, okBs, dispEvs, ebind_ok, ebind_err]

/-- C1 witness: the `N/2`-writing persist on one 2×2×2 image. -/
theorem claim_C1_witness :
    isOkE (benchModel envA halfEntry 1 rs0) = true ∧
    (∃ tr, (okSt (benchModel envA halfEntry 1 rs0)).trace = rs0.trace ++ tr ∧
      okBs (benchModel envA halfEntry 1 rs0) =
        List.zipWith (fun (B N : Nat) => (8 * (B : ℚ)) / ((N : Nat) : ℚ))
          (sizesIn tr) ((lensOf envA.dataset).take 1)) :=
  ⟨by decide, claim_C1.1 Img envA halfEntry 1 rs0 (by decide)⟩

/-- C2: for every measured (model, image) pair, the recorded compression
throughput equals `(N * pixel_bits / (8 * 10^6)) / t_enc` and the recorded
decompression throughput equals `(N * pixel_bits / (8 * 10^6)) / t_dec`,
where `N` is the image's precomputed element count and `pixel_bits` is
`8 *` the element byte width of the raw loaded array, captured (as the
`Ev.loadSz` reading) before the loaded image is preprocessed; `t_enc` and
`t_dec` are the two wall-clock elapsed times of that iteration. -/
theorem claim_C2 :
    ∀ (α : Type) (env : Env) (e : StoredEntry α) (num : Nat) (s : RunSt),
      isOkE (benchModel env e num s) = true →
      ∃ tr, (okSt (benchModel env e num s)).trace = s.trace ++ tr ∧
        ∀ i, i < (okCs (benchModel env e num s)).length →
          (okCs (benchModel env e num s)).getD i 0 =
            ((((lensOf env.dataset).take num).getD i 0 : ℚ) *
              (8 * ((itemsIn tr).getD i 0 : ℚ)) / (8 * 10 ^ 6)) /
              env.times (s.clock + 2 * i) ∧
          (okDs (benchModel env e num s)).getD i 0 =
            ((((lensOf env.dataset).take num).getD i 0 : ℚ) *
              (8 * ((itemsIn tr).getD i 0 : ℚ)) / (8 * 10 ^ 6)) /
              env.times (s.clock + 2 * i + 1) := by
  intro α env e num s hok
  rcases hret : benchModel env e num s with er | x
  · rw [hret] at hok
    simp [isOkE] at hok
  obtain ⟨s', bs, cs, ds⟩ := x
  obtain ⟨ds0, tr, hmap, hlen0, F, hsnd, hplen⟩ := benchModel_spec hret
  refine ⟨tr, by simpa [okSt] using F.trace_eq, ?_⟩
  intro i hi
  simp only [okCs, okDs] at hi ⊢
  have hi' : i < (List.take num (ds0.zip (lensOf env.dataset))).length := by
    rw [← F.cs_len]
    exact hi
  have hcs := F.cs_eq i hi'
  have hds := F.ds_eq i hi'
  rw [hsnd] at hcs hds
  constructor
  · rw [hcs]
    push_cast
    ring
  · rw [hds]
    push_cast
    ring

/-- C2 witness: the concrete one-image run of `halfEntry`. -/
theorem claim_C2_witness :
    isOkE (benchModel envA halfEntry 1 rs0) = true ∧
    (∃ tr, (okSt (benchModel envA halfEntry 1 rs0)).trace = rs0.trace ++ tr ∧
      ∀ i, i < (okCs (benchModel envA halfEntry 1 rs0)).length →
        (okCs (benchModel envA halfEntry 1 rs0)).getD i 0 =
          ((((lensOf envA.dataset).take 1).getD i 0 : ℚ) *
            (8 * ((itemsIn tr).getD i 0 : ℚ)) / (8 * 10 ^ 6)) /
            envA.times (rs0.clock + 2 * i) ∧
        (okDs (benchModel envA halfEntry 1 rs0)).getD i 0 =
          ((((lensOf envA.dataset).take 1).getD i 0 : ℚ) *
            (8 * ((itemsIn tr).getD i 0 : ℚ)) / (8 * 10 ^ 6)) /
            envA.times (rs0.clock + 2 * i + 1)) :=
  ⟨by decide, claim_C2 Img envA halfEntry 1 rs0 (by decide)⟩

/-! ### Claims about the lossy flag, the scratch slot and empty runs -/

/-- C5: within one benchmark run the lossy flag starts false and ends true
exactly when some fidelity comparison (across any model and any image)
returned false; the run emits exactly one warning when that happens and
none otherwise (so no warning is ever emitted after the flag is set); the
flag is monotone — once true in the threaded state it stays true; and the
three metric lists are recorded with one entry per measured image for every
model, mismatches included. -/
theorem claim_C5 :
    (∀ (α : Type) (env : Env) (models : Models α) (num : Nat) (slot0 : Option Bytes),
      isOkE (benchmark env models num slot0) = true →
      ((bmSt (benchmark env models num slot0)).flag =
        (cmpsIn (bmSt (benchmark env models num slot0)).trace).any (fun x => ! x)) ∧
      (warnCount (bmSt (benchmark env models num slot0)).trace =
        if (cmpsIn (bmSt (benchmark env models num slot0)).trace).any (fun x => ! x) = true
        then 1 else 0) ∧
      (∀ r ∈ bmResults (benchmark env models num slot0),
        r.2.1.length = min num env.dataset.length ∧
        r.2.2.1.length = min num env.dataset.length ∧
        r.2.2.2.length = min num env.dataset.length)) ∧
    (∀ (α : Type) (env : Env) (models : Models α) (num : Nat) (s : RunSt),
      isOkE (benchAll env models num s) = true → s.flag = true →
      (allSt (benchAll env models num s)).flag = true) := by
  constructor
  · intro α env models num slot0 hok
    rcases hret : benchmark env models num slot0 with er | x
    · rw [hret] at hok
      simp [isOkE] at hok
    obtain ⟨st, results, means⟩ := x
    obtain ⟨hall, hrep⟩ := benchmark_ok hret
    obtain ⟨tr, htr, hflag, hwarn, hblocks, hrlen, hallr⟩ := benchAll_spec hall
    simp only [List.nil_append] at htr
    simp only [bmSt, bmResults]
    subst htr
    refine ⟨by simpa using hflag, ?_, hallr⟩
    simpa using hwarn
  · intro α env models num s hok hflag
    rcases hret : benchAll env models num s with er | x
    · rw [hret] at hok
      simp [isOkE] at hok
    obtain ⟨st, results⟩ := x
    obtain ⟨tr, _, hf, _, _, _, _⟩ := benchAll_spec hret
    simp only [allSt]
    rw [hf, hflag]
    rfl

/-- C5 witness: a one-image run of the lossy codec — the flag is set, one
warning is emitted, metrics are still recorded; and the flag survives an
outer-loop run started with it already set. -/
theorem claim_C5_witness :
    (((bmSt (benchmark envA [("lossy", lossyEntry)] 1 none)).flag =
        (cmpsIn (bmSt (benchmark envA [("lossy", lossyEntry)] 1 none)).trace).any
          (fun x => ! x)) ∧
      (warnCount (bmSt (benchmark envA [("lossy", lossyEntry)] 1 none)).trace =
        if (cmpsIn (bmSt (benchmark envA [("lossy", lossyEntry)] 1 none)).trace).any
            (fun x => ! x) = true
        then 1 else 0) ∧
      (∀ r ∈ bmResults (benchmark envA [("lossy", lossyEntry)] 1 none),
        r.2.1.length = min 1 envA.dataset.length ∧
        r.2.2.1.length = min 1 envA.dataset.length ∧
        r.2.2.2.length = min 1 envA.dataset.length)) ∧
    (allSt (benchAll envA [("half", halfEntry)] 1
      { slot := none, flag := true, clock := 0, diag := 0, trace := [] })).flag = true :=
  ⟨claim_C5.1 Img envA [("lossy", lossyEntry)] 1 none (by decide),
    claim_C5.2 Img envA [("half", halfEntry)] 1
      { slot := none, flag := true, clock := 0, diag := 0, trace := [] }
      (by decide) rfl⟩

/-- C6: harness construction removes any stale artifact from the scratch
slot; every successful run's trace decomposes into per-image blocks, each of
which writes one artifact, reads exactly its byte size and removes it before
the block ends (so the single slot never holds a second artifact and is
empty between iterations); and each measurement step ends with the slot
empty. -/
theorem claim_C6 :
    (∀ stale : Option Bytes, initTemp stale = none) ∧
    (∀ (α : Type) (env : Env) (models : Models α) (num : Nat) (slot0 : Option Bytes),
      isOkE (benchmark env models num slot0) = true →
      ∃ blocks : List (List Ev),
        (bmSt (benchmark env models num slot0)).trace = blocks.flatten ∧
        ∀ bl ∈ blocks, IsIterBlock bl) ∧
    (∀ (α : Type) (env : Env) (e : StoredEntry α) (image : α) (length : Nat) (s : RunSt),
      isOkE (benchStep env e image length s) = true →
      (stepSt (benchStep env e image length s)).slot = none) := by
  refine ⟨?_, ?_, ?_⟩
  · intro stale
    cases stale <;> rfl
  · intro α env models num slot0 hok
    rcases hret : benchmark env models num slot0 with er | x
    · rw [hret] at hok
      simp [isOkE] at hok
    obtain ⟨st, results, means⟩ := x
    obtain ⟨hall, _⟩ := benchmark_ok hret
    obtain ⟨tr, htr, _, _, hblocks, _, _⟩ := benchAll_spec hall
    simp only [List.nil_append] at htr
    simp only [bmSt]
    rw [htr]
    exact hblocks
  · intro α env e image length s hok
    rcases hret : benchStep env e image length s with er | x
    · rw [hret] at hok
      simp [isOkE] at hok
    obtain ⟨s', b, c, d⟩ := x
    obtain ⟨bytes, raw, loaded, same, _, _, _, _, _, _, _, hslot, _⟩ := benchStep_ok hret
    simpa [stepSt] using hslot

/-- C6 witness: the construction-time removal on a concrete stale artifact,
the block decomposition of a concrete two-model run, and the emptied slot
after a concrete step. -/
theorem claim_C6_witness :
    initTemp (some [7, 7]) = none ∧
    (∃ blocks : List (List Ev),
      (bmSt (benchmark envA [("half", halfEntry), ("lossy", lossyEntry)] 1 none)).trace =
        blocks.flatten ∧ ∀ bl ∈ blocks, IsIterBlock bl) ∧
    (stepSt (benchStep envA halfEntry img8 8 rs0)).slot = none :=
  ⟨claim_C6.1 (some [7, 7]),
    claim_C6.2.1 Img envA [("half", halfEntry), ("lossy", lossyEntry)] 1 none (by decide),
    claim_C6.2.2 Img envA halfEntry img8 8 rs0 (by decide)⟩

/-- C7: a registered model that completes the measurement loop with zero
measured images (num_images = 0 or an empty dataset) makes the mean
computation of the reporting phase raise `ZeroDivisionError`; the benchmark
does not silently report a default value. -/
theorem claim_C7 :
    ∀ (α : Type) (env : Env) (models : Models α) (slot0 : Option Bytes) (num : Nat),
      models ≠ [] → (num = 0 ∨ env.dataset = []) →
      isOkE (benchAll env models num
        { slot := slot0, flag := false, clock := 0, diag := 0, trace := [] }) = true →
      benchmark env models num slot0 = .error .zeroDiv := by
  intro α env models slot0 num hne hzero hok
  rcases hret : benchAll env models num
      { slot := slot0, flag := false, clock := 0, diag := 0, trace := [] } with er | x
  · rw [hret] at hok
    simp [isOkE] at hok
  obtain ⟨st, results⟩ := x
  obtain ⟨tr, _, _, _, _, hrlen, hallr⟩ := benchAll_spec hret
  have hmin : min num env.dataset.length = 0 := by
    rcases hzero with h | h
    · simp [h]
    · simp [h]
  rcases results with _ | ⟨r, rest⟩
  · rw [List.length_nil] at hrlen
    exact absurd (List.length_eq_zero.mp hrlen.symm) hne
  obtain ⟨nm, rbs, rcs, rds⟩ := r
  have hr := hallr (nm, rbs, rcs, rds) (by simp)
  have hbs : rbs = [] := by
    have := hr.1
    rw [hmin] at this
    exact List.length_eq_zero.mp this
  subst hbs
  simp only [benchmark, hret, ebind_ok, report_empty_head, ebind_err]

/-- C7 witness: one registered model, `num_images = 0`. -/
theorem claim_C7_witness :
    benchmark envA [("half", halfEntry)] 0 none = .error .zeroDiv :=
  claim_C7 Img envA [("half", halfEntry)] none 0 (by simp) (Or.inl rfl) (by decide)

/-! ### Claim about the eager preprocessing pass -/

/-- C10: `benchmark(num_images)` applies each model's preprocess hook to the
*entire* dataset before that model's measurement loop begins, although only
`min(num_images, dataset length)` images are then measured; consequently a
preprocess failure on any dataset image — given that the images before it
preprocess fine — aborts the model's run with that error, even when the
failing image lies beyond `num_images` and would never be benchmarked. -/
theorem claim_C10 :
    (∀ (α : Type) (env : Env) (e : StoredEntry α) (num : Nat) (s : RunSt),
      isOkE (benchModel env e num s) = true →
      (okBs (benchModel env e num s)).length = min num env.dataset.length) ∧
    (∀ (α : Type) (env : Env) (e : StoredEntry α) (num : Nat) (s : RunSt)
      (pre post : List Img) (img : Img) (err : PyErr),
      env.dataset = pre ++ img :: post →
      (∀ x ∈ pre, ∃ y, e.preprocess x = .ok y) →
      e.preprocess img = .error err →
      benchModel env e num s = .error err) := by
  constructor
  · intro α env e num s hok
    rcases hret : benchModel env e num s with er | x
    · rw [hret] at hok
      simp [isOkE] at hok
    obtain ⟨s', bs, cs, ds⟩ := x
    obtain ⟨ds0, tr, hmap, hlen0, F, hsnd, hplen⟩ := benchModel_spec hret
    simp only [okBs]
    rw [F.bs_len, hplen]
  · intro α env e num s pre post img err hds hpre herr
    have hmapErr := mapExcept_error (f := e.preprocess) post hpre herr
    unfold benchModel
    rw [hds, hmapErr, ebind_err]

/-- C10 witness: `failEntry` on a two-image dataset whose second image
breaks preprocessing; with `num_images = 1` the second image would never be
measured, yet the run aborts with the preprocess error. -/
theorem claim_C10_witness :
    (okBs (benchModel envA halfEntry 5 rs0)).length = min 5 envA.dataset.length ∧
    benchModel envB failEntry 1 rs0 = .error (.hook 7) := by
  constructor
  · exact claim_C10.1 Img envA halfEntry 5 rs0 (by decide)
  · refine claim_C10.2 Img envB failEntry 1 rs0 [img8] [] imgE (.hook 7) rfl ?_ (by rfl)
    intro x hx
    simp only [List.mem_singleton] at hx
    subst hx
    exact ⟨img8, by rfl⟩

/-! ### The benchmark cannot observe the diagnostic display side channel -/

theorem pydiv_of_ne {a b : ℚ} (h : b ≠ 0) : pydiv a b = .ok (a / b) := by
  simp [pydiv, h]

theorem stripDisp_stepEvs (bytes : Bytes) (item : Nat) (same flag : Bool)
    (o : Option (Fin 4)) :
    stripDisp (stepEvs bytes item same flag o) =
      [Ev.write bytes, Ev.loadSz item, Ev.cmp same] ++
        (if same = false ∧ flag = false then [Ev.warn] else []) ++
        [Ev.size bytes.length, Ev.remove] := by
  by_cases hc : same = false ∧ flag = false <;>
    simp [stepEvs, hc, stripDisp_append, stripDisp_dispEvs]

/-- A measurement step started from display-equivalent states, under
environments that agree on everything but the display oracle, succeeds with
the same metrics and display-equivalent final states. -/
theorem benchStep_cong {α : Type} {env1 env2 : Env} (hT : env1.times = env2.times)
    {e : StoredEntry α} {image : α} {length : Nat} {s1 s2 s1' : RunSt} {b c d : ℚ}
    (hP : RelSt s1 s2) (h : benchStep env1 e image length s1 = .ok (s1', b, c, d)) :
    ∃ s2', benchStep env2 e image length s2 = .ok (s2', b, c, d) ∧ RelSt s1' s2' := by
  obtain ⟨hslotP, hflagP, hclockP, hdiagP, htraceP⟩ := hP
  obtain ⟨bytes, raw, loaded, same, hcE, hlE, hpE, hqE, hlen, ht1, ht2, hslot, hflag,
    hclock, hdiag, htrace, hb, hc, hd⟩ := benchStep_ok h
  rw [hT, hclockP] at ht1 ht2
  subst hb hc hd
  rw [hT, hclockP]
  refine ⟨{ slot := none,
            flag := if same = false ∧ s2.flag = false then true else s2.flag,
            clock := s2.clock + 2,
            diag := if same = false ∧ s2.flag = false then s2.diag + 1 else s2.diag,
            trace := s2.trace ++ [Ev.write bytes, Ev.loadSz raw.itemsize, Ev.cmp same] ++
              (if same = false ∧ s2.flag = false then
                Ev.warn :: dispEvs (env2.disp s2.diag) else []) ++
              [Ev.size bytes.length, Ev.remove] }, ?_, ?_⟩
  · unfold benchStep
    by_cases hcnd : same = false ∧ s2.flag = false <;>
      simp [hcnd, hcE, ebind_ok, readSlot, hlE, hpE, hqE, getsize,
        pydiv_of_ne hlen, pydiv_of_ne ht1, pydiv_of_ne ht2, List.append_assoc]
  · unfold RelSt
    refine ⟨?_, ?_, ?_, ?_, ?_⟩
    · rw [hslot]
    · rw [hflag, hflagP]
    · rw [hclock, hclockP]
    · rw [hdiag, hflagP, hdiagP]
    · rw [htrace]
      by_cases hcnd : same = false ∧ s2.flag = false <;>
        simp [hflagP, hcnd, stripDisp_append, stripDisp_dispEvs, htraceP]

/-- Lemma `benchStep_cong` lifted along the inner measurement loop. -/
theorem benchLoop_cong {α : Type} {env1 env2 : Env} (hT : env1.times = env2.times)
    {e : StoredEntry α} :
    ∀ {pairs : List (α × Nat)} {s1 s2 s1' : RunSt} {bs cs ds : List ℚ},
      RelSt s1 s2 → benchLoop env1 e pairs s1 = .ok (s1', bs, cs, ds) →
      ∃ s2', benchLoop env2 e pairs s2 = .ok (s2', bs, cs, ds) ∧ RelSt s1' s2' := by
  intro pairs
  induction pairs with
  | nil =>
      intro s1 s2 s1' bs cs ds hP h
      simp only [benchLoop, Except.ok.injEq, Prod.mk.injEq] at h
      obtain ⟨h1, h2, h3, h4⟩ := h
      subst h1 h2 h3 h4
      exact ⟨s2, rfl, hP⟩
  | cons p rest ih =>
      obtain ⟨a, n⟩ := p
      intro s1 s2 s1' bs cs ds hP h
      rcases hstep : benchStep env1 e a n s1 with er | x
      · simp only [benchLoop, hstep, ebind_err] at h
        exact absurd h (by simp)
      obtain ⟨t1, b1, c1, d1⟩ := x
      simp only [benchLoop, hstep, ebind_ok] at h
      rcases hrest : benchLoop env1 e rest t1 with er | y
      · simp only [hrest, ebind_err] at h
        exact absurd h (by simp)
      obtain ⟨t2, bs', cs', ds'⟩ := y
      simp only [hrest, ebind_ok, Except.ok.injEq, Prod.mk.injEq] at h
      obtain ⟨h1, h2, h3, h4⟩ := h
      subst h1 h2 h3 h4
      obtain ⟨u1, hstep2, hPu⟩ := benchStep_cong hT hP hstep
      obtain ⟨u2, hrest2, hPv⟩ := ih hPu hrest
      exact ⟨u2, by simp only [benchLoop, hstep2, ebind_ok, hrest2], hPv⟩

/-- Lemma `benchLoop_cong` lifted through a per-model run. -/
theorem benchModel_cong {α : Type} {env1 env2 : Env} (hD : env1.dataset = env2.dataset)
    (hT : env1.times = env2.times) {e : StoredEntry α} {num : Nat}
    {s1 s2 s1' : RunSt} {bs cs ds : List ℚ}
    (hP : RelSt s1 s2) (h : benchModel env1 e num s1 = .ok (s1', bs, cs, ds)) :
    ∃ s2', benchModel env2 e num s2 = .ok (s2', bs, cs, ds) ∧ RelSt s1' s2' := by
  unfold benchModel at h ⊢
  rcases hmap : mapExcept e.preprocess env1.dataset with er | ds0
  · simp only [hmap, ebind_err] at h
    exact absurd h (by simp)
  simp only [hmap, ebind_ok] at h
  rw [← hD]
  simp only [hmap, ebind_ok]
  obtain ⟨s2', h2, hP'⟩ := benchLoop_cong hT hP h
  exact ⟨s2', h2, hP'⟩

/-- Lemma `benchModel_cong` lifted through the loop over all models. -/
theorem benchAll_cong {α : Type} {env1 env2 : Env} (hD : env1.dataset = env2.dataset)
    (hT : env1.times = env2.times) :
    ∀ {models : Models α} {num : Nat} {s1 s2 s1' : RunSt}
      {results : List (String × List ℚ × List ℚ × List ℚ)},
      RelSt s1 s2 → benchAll env1 models num s1 = .ok (s1', results) →
      ∃ s2', benchAll env2 models num s2 = .ok (s2', results) ∧ RelSt s1' s2' := by
  intro models
  induction models with
  | nil =>
      intro num s1 s2 s1' results hP h
      simp only [benchAll, Except.ok.injEq, Prod.mk.injEq] at h
      obtain ⟨h1, h2⟩ := h
      subst h1 h2
      exact ⟨s2, rfl, hP⟩
  | cons p rest ih =>
      obtain ⟨nm, e⟩ := p
      intro num s1 s2 s1' results hP h
      rcases hm : benchModel env1 e num s1 with er | x
      · simp only [benchAll, hm, ebind_err] at h
        exact absurd h (by simp)
      obtain ⟨t1, bs, cs, ds⟩ := x
      simp only [benchAll, hm, ebind_ok] at h
      rcases hrest : benchAll env1 rest num t1 with er | y
      · simp only [hrest, ebind_err] at h
        exact absurd h (by simp)
      obtain ⟨t2, tail⟩ := y
      simp only [hrest, ebind_ok, Except.ok.injEq, Prod.mk.injEq] at h
      obtain ⟨h1, h2⟩ := h
      subst h1 h2
      obtain ⟨u1, hm2, hPu⟩ := benchModel_cong hD hT hP hm
      obtain ⟨u2, hrest2, hPv⟩ := ih hPu hrest
      exact ⟨u2, by simp only [benchAll, hm2, ebind_ok, hrest2], hPv⟩

/-- A successful benchmark's observable outcome — scratch slot, lossy flag,
counters, non-display trace, metric lists and printed means — does not
depend on the display oracle. -/
theorem benchmark_cong {α : Type} {env1 env2 : Env} (hD : env1.dataset = env2.dataset)
    (hT : env1.times = env2.times) {models : Models α} {num : Nat} {slot0 : Option Bytes}
    (hok : isOkE (benchmark env1 models num slot0) = true) :
    bmObs (benchmark env2 models num slot0) = bmObs (benchmark env1 models num slot0) := by
  rcases hret : benchmark env1 models num slot0 with er | x
  · rw [hret] at hok
    simp [isOkE] at hok
  obtain ⟨st, results, means⟩ := x
  obtain ⟨hall, hrep⟩ := benchmark_ok hret
  obtain ⟨st2, hall2, hP⟩ := benchAll_cong hD hT ⟨rfl, rfl, rfl, rfl, rfl⟩ hall
  have h2 : benchmark env2 models num slot0 = .ok (st2, results, means) := by
    simp only [benchmark, hall2, ebind_ok, hrep, ebind_ok]
  rw [h2]
  obtain ⟨hs, hf, hc, hg, htr⟩ := hP
  simp [bmObs, Except.map, hs, hf, hc, hg, htr]

theorem cmp_false_not_mem_dispEvs : ∀ o, Ev.cmp false ∉ dispEvs o := by decide

theorem stepEvs_cmp_false {bytes : Bytes} {it : Nat} {same fl : Bool} {o : Option (Fin 4)}
    (h : Ev.cmp false ∈ stepEvs bytes it same fl o) : same = false := by
  cases same
  · rfl
  · exfalso
    simp [stepEvs] at h

/-- C9: any failure in the side-by-side display path is swallowed.  First,
a benchmark run's entire observable outcome — success/failure, metric
lists, printed means, lossy flag, slot, counters and non-display trace —
is the same under any display oracle (so in particular a display failure
never propagates an error out of `benchmark` and never changes a recorded
metric).  Second, when a mismatch fires the one-time diagnostic, the step
still succeeds, the warning is emitted, the lossy flag is set afterwards,
and with a failure-free display oracle the two display threads are started
and joined in order within the diagnostic block.  Third, the loop records
the metrics of every iterated image, mismatched or not. -/
theorem claim_C9 :
    (∀ (α : Type) (env1 env2 : Env) (models : Models α) (num : Nat) (slot0 : Option Bytes),
      env1.dataset = env2.dataset → env1.times = env2.times →
      isOkE (benchmark env1 models num slot0) = true →
      bmObs (benchmark env2 models num slot0) = bmObs (benchmark env1 models num slot0)) ∧
    (∀ (α : Type) (env : Env) (e : StoredEntry α) (image : α) (length : Nat) (s : RunSt),
      s.flag = false → isOkE (benchStep env e image length s) = true →
      Ev.cmp false ∈ (stepSt (benchStep env e image length s)).trace.drop s.trace.length →
      (stepSt (benchStep env e image length s)).flag = true ∧
      Ev.warn ∈ (stepSt (benchStep env e image length s)).trace.drop s.trace.length ∧
      (env.disp s.diag = none →
        ∃ l r, (stepSt (benchStep env e image length s)).trace.drop s.trace.length =
          l ++ [Ev.dispStart 1, Ev.dispStart 2, Ev.dispJoin 1, Ev.dispJoin 2] ++ r)) ∧
    (∀ (α : Type) (env : Env) (e : StoredEntry α) (pairs : List (α × Nat)) (s : RunSt),
      isOkE (benchLoop env e pairs s) = true →
      (okBs (benchLoop env e pairs s)).length = pairs.length) := by
  refine ⟨?_, ?_, ?_⟩
  · intro α env1 env2 models num slot0 hD hT hok
    exact benchmark_cong hD hT hok
  · intro α env e image length s hfl hok hmem
    rcases hret : benchStep env e image length s with er | x
    · rw [hret] at hok
      simp [isOkE] at hok
    obtain ⟨s', b, c, d⟩ := x
    obtain ⟨bytes, raw, loaded, same, hcE, hlE, hpE, hqE, _, _, _, _, hflag, _, htrace,
      _, _, _⟩ := benchStep_ok' hret
    rw [hret] at hmem
    simp only [stepSt] at hmem
    rw [htrace, List.drop_left] at hmem
    simp only [stepSt]
    rw [htrace, List.drop_left]
    have hsame : same = false := stepEvs_cmp_false hmem
    subst hsame
    refine ⟨by rw [hflag, hfl]; rfl, ?_, ?_⟩
    · simp [stepEvs, hfl]
    · intro hdisp
      refine ⟨[Ev.write bytes, Ev.loadSz raw.itemsize, Ev.cmp false, Ev.warn],
        [Ev.size bytes.length, Ev.remove], ?_⟩
      simp [stepEvs, hfl, hdisp, dispEvs]
  · intro α env e pairs s hok
    rcases hret : benchLoop env e pairs s with er | x
    · rw [hret] at hok
      simp [isOkE] at hok
    obtain ⟨s', bs, cs, ds⟩ := x
    obtain ⟨tr, F⟩ := benchLoop_spec hret
    simp only [okBs]
    exact F.bs_len

/-- C9 witness: the lossy one-image run observed under a failure-free and a
failing display oracle; the concrete diagnostic-firing step; the concrete
one-pair loop. -/
theorem claim_C9_witness :
    bmObs (benchmark envD [("lossy", lossyEntry)] 1 none) =
      bmObs (benchmark envA [("lossy", lossyEntry)] 1 none) ∧
    ((stepSt (benchStep envA lossyEntry img8 8 rs0)).flag = true ∧
      Ev.warn ∈ (stepSt (benchStep envA lossyEntry img8 8 rs0)).trace.drop rs0.trace.length ∧
      (envA.disp rs0.diag = none →
        ∃ l r, (stepSt (benchStep envA lossyEntry img8 8 rs0)).trace.drop rs0.trace.length =
          l ++ [Ev.dispStart 1, Ev.dispStart 2, Ev.dispJoin 1, Ev.dispJoin 2] ++ r)) ∧
    (okBs (benchLoop envA lossyEntry [(img8, 8)] rs0)).length = [(img8, 8)].length :=
  ⟨claim_C9.1 Img envA envD [("lossy", lossyEntry)] 1 none rfl rfl (by decide),
    claim_C9.2.1 Img envA lossyEntry img8 8 rs0 rfl (by decide) (by decide),
    claim_C9.2.2 Img envA lossyEntry [(img8, 8)] rs0 (by decide)⟩

end Llimcobe
